import Mathlib

/-!
Verification of the MPL compiler back-end (x86 code generator and its IR
model) against its natural-language specification.  The definitions below
are shallow embeddings of the C++ sources: `gen-x86.cpp` (layout pass,
emitter), `opt-dead.cpp` (liveness), `opt-liveblock.cpp` (block former),
`routine.cpp` and `obj_container.cpp` (IR model).  Machine sizes are plain
naturals, fallible operations return `Except`, and the mutable state of a
pass is threaded explicitly.
-/

namespace MPL

/-! ## Widths, modes and errors (`mpl/prime.hpp`, `mpl/gen.hpp`) -/

/-- Width tags of a prime, from the `width_t` enum in `mpl/prime.hpp`. -/
inductive width_t
  | w_none | w_byte | w_byte2 | w_byte4 | w_byte8 | w_max | w_word | w_ptr
deriving DecidableEq

/-- x86 processor modes, from `x86_mode_t` in `mpl/gen.hpp`. -/
inductive x86_mode_t
  | xm_real | xm_smm | xm_protected | xm_long
deriving DecidableEq

open width_t x86_mode_t

/-- Error kinds of the back-end, named after the spec's error taxonomy (§7);
in the C++ sources each of these is a `msg_print(V_ERROR)` followed by a bare
`throw`. -/
inductive GenError
  | InvalidWidth | InvalidMode | InvalidStorageClass
  | DuplicateName | Unnamed | NotFound | InternalError
deriving DecidableEq

/-- x86 register sizes, `#define`s in `gen-x86.cpp`. -/
def BYTE : Nat := 1

/-- `#define WORD ((size_t) 2)` in `gen-x86.cpp`. -/
def WORD : Nat := 2

/-- `#define DWORD ((size_t) 4)` in `gen-x86.cpp`. -/
def DWORD : Nat := 4

/-- `#define QWORD ((size_t) 8)` in `gen-x86.cpp`. -/
def QWORD : Nat := 8

/-- `set_prime_size` from `gen-x86.cpp`: maps a prime's width tag to its byte
size in the given mode, or fails (`throw`) on a qword width outside long mode
and on an unset width. -/
def set_prime_size (mode : x86_mode_t) (width : width_t) : Except GenError Nat :=
  match width with
  | w_byte  => .ok BYTE
  | w_byte2 => .ok WORD
  | w_byte4 => .ok DWORD
  | w_byte8 => if mode = xm_long then .ok QWORD else .error .InvalidWidth
  | w_word  => if mode = xm_long then .ok QWORD else .ok DWORD
  | w_ptr   => if mode = xm_long then .ok QWORD else .ok DWORD
  | w_max   => if mode = xm_long then .ok QWORD else .ok DWORD
  | w_none  => .error .InvalidWidth

/-! ## Storage classes and `Routine::set_sclass` (`mpl/object.hpp`, `routine.cpp`) -/

/-- Storage classes, from `storage_class_t` in `mpl/object.hpp`. -/
inductive storage_class_t
  | sc_none | sc_private | sc_public | sc_extern
  | sc_stack | sc_param | sc_temp | sc_const
deriving DecidableEq

open storage_class_t

/-- `Routine::set_sclass` from `routine.cpp`.  The guard is transcribed
verbatim: the source tests `storage_class != sc_private` twice, so the
condition reduces to `storage_class ≠ sc_private`. -/
def set_sclass (storage_class : storage_class_t) : Except GenError storage_class_t :=
  if storage_class ≠ sc_private ∧ storage_class ≠ sc_private then
    .error .InvalidStorageClass
  else
    .ok storage_class

/-! ## The IR container (`obj_container.cpp`) -/

/-- An object of the IR container; only the name key matters for
`Obj_Index`, which is a binary search tree keyed on `get_label()`. -/
structure Object where
  name : String
deriving DecidableEq

/-- Modelled from the spec: `DS_insert` comes from the external `util/data.h`
library, which is not part of this repository.  The index is created by
`DS_new_bst(sizeof(Object *), false, …)` — a binary search tree with
duplicate keys disallowed — and per spec §4.1 an insertion whose key is
already present fails.  Insertion order is kept for the surviving entries. -/
def DS_insert (index : List Object) (object : Object) : Option (List Object) :=
  if index.any (fun o => o.name = object.name) then none
  else some (index ++ [object])

/-- `DS_find` on the name-keyed tree: the first (unique) entry with the
given name. -/
def DS_find (index : List Object) (name : String) : Option Object :=
  index.find? (fun o => o.name = name)

/-- `Obj_Index::add` from `obj_container.cpp`.  The `named()` guard ("object
has no name" → `Unnamed`) present in an earlier draft is commented out in
the source, so the function delegates directly to `DS_insert`. -/
def Obj_Index.add (index : List Object) (object : Object) :
    Except GenError (List Object) :=
  match DS_insert index object with
  | none => .error .DuplicateName
  | some idx => .ok idx

/-- `Obj_Index::find` from `obj_container.cpp`. -/
def Obj_Index.find (index : List Object) (name : String) : Option Object :=
  DS_find index name

/-! ## Number rendering (`str_num` in `gen-x86.cpp`)

Both drafts of `str_num` render a number with `sprintf(array, "0x%llu", num)`:
the two characters `0x` followed by the number's digits in base ten
(`%llu` is the unsigned *decimal* conversion). -/

/-- `str_num` from `gen-x86.cpp`: `"0x"` followed by the decimal digits of
`num`. -/
def str_num (num : Nat) : String := "0x" ++ Nat.repr num

/-- The value that an assembler obtains when it reads the digit string
written by `str_num` — the decimal digits of `v` — as a *hexadecimal*
numeral, which is what the `0x` prefix instructs it to do. -/
def hexValOfDec (v : Nat) : Nat := Nat.ofDigits 16 (Nat.digits 10 v)

/-! ## Struct layout (`set_struct_size` in `gen-x86.cpp`)

`set_struct_size` walks the members in declaration order, printing a
`struc` block to the output: a `resb size` line per member, preceded by an
`align` directive (and a padding warning) whenever the member needs
alignment.  The running total `bytes` is advanced by `bytes +=
field->get_size()` only — the emitted `align` directives are never added to
it — and the struct's size is set to the final total.  The function then
prints an assembler sanity check `%if (size != NAME_size) %error %endif`
comparing its computed size with the size the assembler derives from the
very same `struc` block. -/

/-- One line inside an emitted `struc NAME … endstrc` block. -/
inductive StrucLine
  | align (n : Nat)
  | resb (label : String) (n : Nat)
deriving DecidableEq

/-- Result of `set_struct_size`: the size stored by `structure->set_size`,
the emitted layout lines, and the padding warnings issued. -/
structure StructLayout where
  size : Nat
  lines : List StrucLine
  warns : List String
deriving DecidableEq

/-- The `V_WARN` message texts of `set_struct_size`. -/
def warnPad (field sname : String) : String :=
  "Padding before field " ++ field ++ " in structure " ++ sname

/-- The alignment decision of `set_struct_size` for one non-first field:
`align QWORD` in long mode when the field is larger than a qword,
`align DWORD` in protected mode when it is larger than a dword, otherwise
`align size` when the running byte total is not a multiple of the field's
size; `none` when no `align` line (and no warning) is emitted. -/
def pad_directive (mode : x86_mode_t) (bytes fsize : Nat) : Option Nat :=
  if mode = xm_long ∧ fsize > QWORD then some QWORD
  else if mode = xm_protected ∧ fsize > DWORD then some DWORD
  else if bytes % fsize ≠ 0 then some fsize
  else none

/-- The `while(( field = structure->members.next() ))` loop of
`set_struct_size` over the fields after the first, carrying the running
total `bytes`.  Returns the final `bytes`, the emitted lines and the
warnings.  Field sizes are taken as already computed — the first loop of
the source ensures this before any layout is done. -/
def struct_fields_go (mode : x86_mode_t) (sname : String) (bytes : Nat) :
    List (String × Nat) → Nat × List StrucLine × List String
  | [] => (bytes, [], [])
  | (label, fsize) :: rest =>
    let tail := struct_fields_go mode sname (bytes + fsize) rest
    match pad_directive mode bytes fsize with
    | some a =>
        (tail.1, .align a :: .resb label fsize :: tail.2.1,
         warnPad label sname :: tail.2.2)
    | none => (tail.1, .resb label fsize :: tail.2.1, tail.2.2)

/-- `set_struct_size` from `gen-x86.cpp` on a struct named `sname` whose
member list is `first :: rest` (the source reads the first member before
the loop; the member container of a processed struct is non-empty).  Each
member is a `(label, size)` pair. -/
def set_struct_size (mode : x86_mode_t) (sname : String)
    (first : String × Nat) (rest : List (String × Nat)) : StructLayout :=
  let tail := struct_fields_go mode sname first.2 rest
  { size := tail.1
    lines := .resb first.1 first.2 :: tail.2.1
    warns := tail.2.2 }

/-! NASM semantics of a `struc` block: `align n` advances the offset to the
next multiple of `n`, `label: resb n` places `label` at the current offset
and advances it by `n`; `NAME_size` is the final offset. -/

/-- Round `off` up to the next multiple of `a` (for `a > 0`). -/
def alignUp (off a : Nat) : Nat := ((off + a - 1) / a) * a

/-- Field offsets the assembler assigns to the labels of a `struc` block
starting at offset `off`. -/
def strucOffsets (off : Nat) : List StrucLine → List (String × Nat)
  | [] => []
  | .align a :: rest => strucOffsets (alignUp off a) rest
  | .resb label n :: rest => (label, off) :: strucOffsets (off + n) rest

/-- The `NAME_size` value the assembler computes for a `struc` block
starting at offset `off`. -/
def strucSize (off : Nat) : List StrucLine → Nat
  | [] => off
  | .align a :: rest => strucSize (alignUp off a) rest
  | .resb _ n :: rest => strucSize (off + n) rest

/-- The struct of spec §8 scenario 3: `struct S { a: byte; b: byte4; c: byte }`,
laid out by `set_struct_size` in protected mode. -/
def exStructS : StructLayout :=
  set_struct_size xm_protected "S" ("a", BYTE) [("b", DWORD), ("c", BYTE)]

/-! ## The emitter's division (`div` in `gen-x86.cpp`) -/

/-- The x86 registers, from `reg_t` in `gen-x86.cpp`. -/
inductive reg_t
  | A | B | C | D | SI | DI | BP | SP
  | R8 | R9 | R10 | R11 | R12 | R13 | R14 | R15
deriving DecidableEq

/-- The two opcodes dispatched to the emitter's `div` (`Gen_inst` sends
`case r_div: case r_mod:` there). -/
inductive div_code
  | r_div | r_mod
deriving DecidableEq

/-- `str_reg` from `gen-x86.cpp` (the `size_t`-width draft): builds the
register name from a three-character scratch array.  Widths outside
{1,2,4,8} make the source print an internal error and return stale buffer
contents; they are modelled as `""`.  A qword width outside long mode
returns the `"!!Bad width!!"` marker. -/
def str_reg (mode : x86_mode_t) (width : Nat) (reg : reg_t) : String :=
  if mode ≠ xm_long ∧ width = QWORD then "!!Bad width!!"
  else if width ≠ BYTE ∧ width ≠ WORD ∧ width ≠ DWORD ∧ width ≠ QWORD then ""
  else
    let c0 : Char := if width = DWORD then 'e' else if width = QWORD then 'r' else ' '
    let c2 : Char := if width = BYTE then ' ' else 'x'
    let p : Char × Char :=
      match reg with
      | .A => ('a', c2) | .B => ('b', c2) | .C => ('c', c2) | .D => ('d', c2)
      | .SI => ('s', 'i') | .DI => ('d', 'i') | .BP => ('b', 'p') | .SP => ('s', 'p')
      | .R8 => ('8', ' ') | .R9 => ('9', ' ')
      | .R10 => ('1', '0') | .R11 => ('1', '1') | .R12 => ('1', '2')
      | .R13 => ('1', '3') | .R14 => ('1', '4') | .R15 => ('1', '5')
    String.mk [c0, p.1, p.2]

/-- A prime operand as the emitter sees it (`sym_pt` pointing at a
`Primative`): its label, computed byte size and signedness. -/
structure Primative where
  label : String
  size : Nat
  signed : Bool
deriving DecidableEq

/-- One observable step of the emitter: `Load_prime(reg, src)` ("load the
r-value of `src` into `reg`"), or a `put_str(FORM_3, mnemonic, operand, comment)`
output line. -/
inductive x86Act
  | load (reg : reg_t) (src : String)
  | put3 (mnemonic operand comment : String)
deriving DecidableEq

/-- The register descriptor `reg_d`: which object's value each register
currently holds. -/
def RegDesc : Type := reg_t → Option String

/-- `reg_d.set_val(r, o)`: record that register `r` now holds the value of
object `o`. -/
def set_val (d : RegDesc) (r : reg_t) (o : String) : RegDesc :=
  fun x => if x = r then some o else d x

/-- The emitter's `div` from `gen-x86.cpp` (lines 912–923): load the left
operand (numerator) into the accumulator, load the right operand (divisor)
into the data register, emit `idiv` when either operand is signed and `div`
otherwise, and record the result as living in the accumulator for `r_div`
and in the data register for `r_mod`.  Returns the emitted steps and the
updated register descriptor. -/
def div (mode : x86_mode_t) (op : div_code) (result dest source : Primative)
    (reg_d : RegDesc) : List x86Act × RegDesc :=
  ([ .load .A dest.label,
     .load .D source.label,
     .put3 (if dest.signed || source.signed then "idiv" else "div")
       (str_reg mode source.size .D) "" ],
   if op = .r_div then set_val reg_d .A result.label
   else set_val reg_d .D result.label)

/-- Values held by the registers under an environment `env` assigning a
value to every IR object: executing a `load` makes the register hold the
source object's value; output lines do not change registers. -/
def exec (env : String → Int) : List x86Act → (reg_t → Int) → (reg_t → Int)
  | [], m => m
  | .load r s :: rest, m => exec env rest (fun x => if x = r then env s else m x)
  | .put3 _ _ _ :: rest, m => exec env rest m

/-! ## Instructions (`mpl/instructions.hpp`) -/

/-- The intermediate op codes, from `inst_code` in `mpl/instructions.hpp`. -/
inductive inst_code
  | i_nop
  | i_idx | i_mbr
  | i_ref | i_dref
  | i_ass | i_cpy
  | i_neg | i_not | i_inv | i_inc | i_dec | i_sz
  | i_mul | i_div | i_mod | i_exp | i_lsh | i_rsh | i_rol | i_ror
  | i_add | i_sub | i_band | i_bor | i_xor
  | i_eq | i_neq | i_lt | i_gt | i_lte | i_gte
  | i_and | i_or
  | i_jmp | i_jz | i_lbl | i_loop
  | i_parm | i_call | i_rtrn
  | i_proc
  | i_NUM
deriving DecidableEq

open inst_code

/-- A quad `Instruction` from `mpl/instructions.hpp`.  Operand slots hold
the label of the operand object (instructions reference operands through
the unique-keyed operand container, so labels stand for the `op_pt`
pointers); `""` is a null slot.  The per-instruction flags of the two
liveness drafts are all present: `used_next` (header field, set by the
`arg1`/`arg2` draft of `Liveness`) and `left_live`/`right_live` (set by the
`opt-dead.cpp` draft). -/
structure Instruction where
  op : inst_code
  result : String := ""
  left : String := ""
  right : String := ""
  used_next : Bool := false
  left_live : Bool := false
  right_live : Bool := false
deriving DecidableEq

/-! ## Block former (`Mk_blk` in `opt-liveblock.cpp`) -/

/-- The opcodes on which `Mk_blk` closes a block: `i_jmp`, `i_jz`,
`i_rtrn`, `i_call` — and not `i_loop`. -/
def isMkBlkTerm (op : inst_code) : Bool :=
  op = i_jmp || op = i_jz || op = i_rtrn || op = i_call

/-- The spec's terminator set (§4.2): `jmp`, `jz`, `loop`, `rtrn`, `call`. -/
def isSpecTerm (op : inst_code) : Bool :=
  op = i_jmp || op = i_jz || op = i_loop || op = i_rtrn || op = i_call

/-- The `while(( inst = q->first() ))` loop of `Mk_blk`: keep draining the
queue into the block; stop *before* a label (entry points are leaders) and
*after* a terminator (statements after exits are leaders).  Returns the
drained instructions and the remaining queue. -/
def mk_blk_rest : List Instruction → List Instruction × List Instruction
  | [] => ([], [])
  | inst :: rest =>
    if inst.op = i_lbl then ([], inst :: rest)
    else if isMkBlkTerm inst.op then ([inst], rest)
    else
      let p := mk_blk_rest rest
      (inst :: p.1, p.2)

/-- `Mk_blk` from `opt-liveblock.cpp`: `none` on an empty queue; otherwise
dequeue the first instruction unconditionally (each block must contain at
least one instruction), stop immediately if it is a terminator, else drain
until the next leader. -/
def Mk_blk : List Instruction → Option (List Instruction × List Instruction)
  | [] => none
  | inst :: rest =>
    if isMkBlkTerm inst.op then some ([inst], rest)
    else
      let p := mk_blk_rest rest
      some (inst :: p.1, p.2)

/-- The `while (( blk_pt = Mk_blk(prog_data->instructions) ))` driver loop
of `opt_liveblock`, collecting the blocks in order.  `Mk_blk` consumes at
least one instruction whenever it returns a block, so `q.length` rounds of
the loop always suffice; the fuel only bounds the recursion. -/
def mkBlocksFuel : Nat → List Instruction → List (List Instruction)
  | 0, _ => []
  | fuel + 1, q =>
    match Mk_blk q with
    | none => []
    | some (b, r) => b :: mkBlocksFuel fuel r

/-- All basic blocks the block former produces from the instruction queue
`q`. -/
def mkBlocks (q : List Instruction) : List (List Instruction) :=
  mkBlocksFuel q.length q

/-- No instruction satisfying `term` occurs before the last position of the
list. -/
def noMidTerm (term : inst_code → Bool) : List Instruction → Bool
  | [] => true
  | [_] => true
  | inst :: rest => !term inst.op && noMidTerm term rest

/-- `i_lbl` occurs at most as the first instruction. -/
def lblOnlyFirst : List Instruction → Bool
  | [] => true
  | _ :: rest => rest.all fun inst => decide (inst.op ≠ i_lbl)

/-- The block shape claimed by the spec (§4.2 with its terminator set):
non-empty, terminators only in last position, labels only first. -/
def blockWF_spec (blk : List Instruction) : Bool :=
  !blk.isEmpty && noMidTerm isSpecTerm blk && lblOnlyFirst blk

/-- The block shape `Mk_blk` actually guarantees: non-empty, `i_jmp` /
`i_jz` / `i_rtrn` / `i_call` only in last position, labels only first. -/
def blockWF_code (blk : List Instruction) : Bool :=
  !blk.isEmpty && noMidTerm isMkBlkTerm blk && lblOnlyFirst blk

/-! ## Liveness (`opt-dead.cpp` and the `used_next` draft)

Operand attributes live in the unique-keyed operand container; the
container's key set is a list of labels `ops`, the storage type of each
operand is a fixed map `ty`, and the mutable `live` bit of each operand is
a map that the pass updates.  `Operands::remove(label)` deletes the entry
with that label if present and is a no-op otherwise (`operands.cpp`). -/

/-- Operand storage types from `storage_t` in `operands.hpp`. -/
inductive storage_t
  | st_none | st_mem | st_code | st_temp
deriving DecidableEq

open storage_t

/-- Update one key of a boolean map. -/
def upd (f : String → Bool) (k : String) (b : Bool) : String → Bool :=
  fun x => if x = k then b else f x

/-- Opcode class "no results" of the `opt-dead.cpp` draft of `Liveness`:
`lbl`, `call`, `parm`, `jmp`, `jz`, `loop`, `rtrn`. -/
def isNoResultOp (op : inst_code) : Bool :=
  op = i_lbl || op = i_call || op = i_parm || op = i_jmp || op = i_jz ||
  op = i_loop || op = i_rtrn

/-- Opcode class "unary ops" of `Liveness`: `ass`, `ref`, `dref`, `neg`,
`not`, `inv`, `inc`, `dec`, `sz`. -/
def isUnaryOp (op : inst_code) : Bool :=
  op = i_ass || op = i_ref || op = i_dref || op = i_neg || op = i_not ||
  op = i_inv || op = i_inc || op = i_dec || op = i_sz

/-- Opcode class "binary ops" of `Liveness`: the arithmetic, shift,
relational and logical two-operand codes. -/
def isBinaryOp (op : inst_code) : Bool :=
  op = i_mul || op = i_div || op = i_mod || op = i_exp || op = i_lsh ||
  op = i_rsh || op = i_rol || op = i_ror || op = i_add || op = i_sub ||
  op = i_band || op = i_bor || op = i_xor || op = i_eq || op = i_neq ||
  op = i_lt || op = i_gt || op = i_lte || op = i_gte || op = i_and || op = i_or

/-- State of the backward walk of the `opt-dead.cpp` draft of `Liveness`:
the surviving instructions ahead of the cursor (in block order), the
operands' live bits, the operand container's key set, the labels of the
temps deleted so far, and the number of `V_ERROR` messages printed. -/
structure LiveResult where
  block : List Instruction
  live : String → Bool
  ops : List String
  removed : List String
  errors : Nat

/-- One iteration of the backward `do … while(( inst = blk->prev() ))` loop
of `Liveness` in `opt-dead.cpp`, processing `inst` against the state built
from the instructions after it. -/
def liveness_step (ty : String → storage_t) (st : LiveResult)
    (inst : Instruction) : LiveResult :=
  if inst.op = i_nop then
    { st with block := inst :: st.block }
  else if isNoResultOp inst.op then
    { st with block := inst :: st.block, live := upd st.live inst.left true }
  else if isUnaryOp inst.op then
    if ty inst.result = st_temp ∧ st.live inst.result = false then
      { st with ops := st.ops.erase inst.result,
                removed := inst.result :: st.removed }
    else
      let live1 := upd st.live inst.result false
      { st with
        block := { inst with left_live := inst.left_live || live1 inst.left }
                   :: st.block
        live := upd live1 inst.left true }
  else if isBinaryOp inst.op then
    if ty inst.result = st_temp ∧ st.live inst.result = false then
      { st with ops := st.ops.erase inst.result,
                removed := inst.result :: st.removed }
    else
      let live1 := upd st.live inst.result false
      { st with
        block := { inst with
                     left_live := inst.left_live || live1 inst.left,
                     right_live := inst.right_live || live1 inst.right }
                   :: st.block
        live := upd (upd live1 inst.left true) inst.right true }
  else
    { st with block := inst :: st.block, errors := st.errors + 1 }

/-- `Liveness` from `opt-dead.cpp`: on an empty block return at once
(a `V_DEBUG` diagnostic only — not an error — and no state change);
otherwise walk the block back to front. -/
def Liveness (ty : String → storage_t) (blk : List Instruction)
    (live : String → Bool) (ops : List String) : LiveResult :=
  match blk with
  | [] => ⟨[], live, ops, [], 0⟩
  | _ => blk.reverse.foldl (liveness_step ty) ⟨[], live, ops, [], 0⟩

/-! The `used_next` draft of `Liveness` (the redundant draft of
`opt-dead.cpp` kept in the repository), which matches spec §4.3: it keeps
two rolling handles `arg1`, `arg2` — the left/right operands of the most
recently processed instruction — and sets each result instruction's
`used_next` to `result == arg1 ∨ result == arg2`.  Its "no results" class
additionally contains `i_proc`. -/

/-- Opcode class "no results" of the `used_next` draft. -/
def isNoResultOp2 (op : inst_code) : Bool :=
  isNoResultOp op || op = i_proc

/-- State of the `used_next` draft's walk: as `LiveResult` plus the rolling
operand handles. -/
structure LiveUNResult where
  block : List Instruction
  live : String → Bool
  ops : List String
  removed : List String
  errors : Nat
  arg1 : Option String
  arg2 : Option String

/-- One backward iteration of the `used_next` draft of `Liveness`. -/
def liveness_un_step (ty : String → storage_t) (st : LiveUNResult)
    (inst : Instruction) : LiveUNResult :=
  if inst.op = i_nop then
    { st with block := inst :: st.block }
  else if isNoResultOp2 inst.op then
    { st with
      block := { inst with used_next := false } :: st.block
      live := upd st.live inst.left true
      arg1 := some inst.left, arg2 := none }
  else if isUnaryOp inst.op then
    if ty inst.result = st_temp ∧ st.live inst.result = false then
      { st with ops := st.ops.erase inst.result,
                removed := inst.result :: st.removed }
    else
      { st with
        block := { inst with
                     used_next := (some inst.result == st.arg1) ||
                                  (some inst.result == st.arg2) } :: st.block
        live := upd (upd st.live inst.result false) inst.left true
        arg1 := some inst.left, arg2 := none }
  else if isBinaryOp inst.op then
    if ty inst.result = st_temp ∧ st.live inst.result = false then
      { st with ops := st.ops.erase inst.result,
                removed := inst.result :: st.removed }
    else
      { st with
        block := { inst with
                     used_next := (some inst.result == st.arg1) ||
                                  (some inst.result == st.arg2) } :: st.block
        live := upd (upd (upd st.live inst.result false) inst.left true)
                  inst.right true
        arg1 := some inst.left, arg2 := some inst.right }
  else
    { st with block := inst :: st.block, errors := st.errors + 1 }

/-- The `used_next` draft of `Liveness`: `arg1 = arg2 = NULL`, then walk the
block back to front. -/
def Liveness_un (ty : String → storage_t) (blk : List Instruction)
    (live : String → Bool) (ops : List String) : LiveUNResult :=
  match blk with
  | [] => ⟨[], live, ops, [], 0, none, none⟩
  | _ => blk.reverse.foldl (liveness_un_step ty) ⟨[], live, ops, [], 0, none, none⟩

/-- The operand labels an instruction *reads*, by the opcode classes of the
liveness pass: the left slot for no-result and unary instructions, left and
right for binary ones. -/
def readsOf (inst : Instruction) : List String :=
  if inst.op = i_nop then []
  else if isNoResultOp2 inst.op then [inst.left]
  else if isUnaryOp inst.op then [inst.left]
  else if isBinaryOp inst.op then [inst.left, inst.right]
  else []

/-- The claim's reading of `used_next` on a processed block: every
unary/binary instruction's `used_next` bit equals "*some* later instruction
in the block reads the result operand". -/
def c2_spec_holds : List Instruction → Bool
  | [] => true
  | inst :: rest =>
    (if isUnaryOp inst.op || isBinaryOp inst.op then
       inst.used_next == rest.any (fun j => (readsOf j).contains inst.result)
     else true) && c2_spec_holds rest

/-- The rolling handles `arg1`, `arg2` as determined by the instructions
*after* the cursor in the final block: the left/right operands of the next
instruction that is neither a `nop` nor of unknown opcode (mirroring which
instructions update the handles during the walk). -/
def nextArgs : List Instruction → Option String × Option String
  | [] => (none, none)
  | inst :: rest =>
    if inst.op = i_nop then nextArgs rest
    else if isNoResultOp2 inst.op then (some inst.left, none)
    else if isUnaryOp inst.op then (some inst.left, none)
    else if isBinaryOp inst.op then (some inst.left, some inst.right)
    else nextArgs rest

/-- What the `used_next` draft actually guarantees on its output block:
every unary/binary instruction's `used_next` bit equals "the result operand
is the left or right operand of the *next* surviving non-`nop`
instruction". -/
def usedNextOK : List Instruction → Bool
  | [] => true
  | inst :: rest =>
    (if isUnaryOp inst.op || isBinaryOp inst.op then
       inst.used_next == ((some inst.result == (nextArgs rest).1) ||
                          (some inst.result == (nextArgs rest).2))
     else true) && usedNextOK rest

/-! ## Concrete programs used to evaluate the passes -/

/-- Storage types for the dead-temp example: `t2` is a compiler temp, the
rest are memory objects. -/
def tyDead : String → storage_t := fun l => if l = "t2" then st_temp else st_mem

/-- A block whose only instruction computes the never-read temp `t2`
(spec §8 scenario 2's dead multiplication). -/
def blkDead : List Instruction :=
  [{ op := i_mul, result := "t2", left := "c", right := "d" }]

/-- Operand container for the dead-temp example. -/
def opsDead : List String := ["c", "d", "t2"]

/-- Storage types for the `used_next` example: `t` is a compiler temp. -/
def tyUN : String → storage_t := fun l => if l = "t" then st_temp else st_mem

/-- A block in which the temp `t` is defined, skipped over by one
instruction, and read two instructions later:
`add t, a, b ; ass x, c ; ass y, t`. -/
def blkUN : List Instruction :=
  [{ op := i_add, result := "t", left := "a", right := "b" },
   { op := i_ass, result := "x", left := "c" },
   { op := i_ass, result := "y", left := "t" }]

/-- Operand container for the `used_next` example. -/
def opsUN : List String := ["a", "b", "c", "t", "x", "y"]

/-- An instruction queue starting with a `loop`: `loop x ; nop`. -/
def exQ : List Instruction := [{ op := i_loop, left := "x" }, { op := i_nop }]

/-- The single block the block former builds from `exQ`: the `loop` does
not close it, so the `nop` lands in the same block after it. -/
def exLoopBlk : List Instruction := [{ op := i_loop, left := "x" }, { op := i_nop }]

/-- The numerator operand of the division example: unsigned dword `n`. -/
def divNum : Primative := ⟨"n", 4, false⟩

/-- The divisor operand of the division example: unsigned dword `d`. -/
def divDen : Primative := ⟨"d", 4, false⟩

/-- The result operand of the division example. -/
def divRes : Primative := ⟨"t", 4, false⟩

/-- Object values for the division example: `n = 7`, `d = 5`. -/
def divEnv : String → Int := fun s => if s = "n" then 7 else if s = "d" then 5 else 0

/-- An empty register descriptor (cleared at routine entry). -/
def emptyDesc : RegDesc := fun _ => none

/-- All registers zeroed. -/
def zeroRegs : reg_t → Int := fun _ => 0

deriving instance DecidableEq for Except

end MPL

namespace MPL

open width_t x86_mode_t storage_class_t inst_code storage_t

/-! # Theorems -/

/-! ## C4 — width → byte-size table of the layout pass -/

/-- C4: for every prime, `set_prime_size` maps `byte`/`byte2`/`byte4` to
byte sizes 1/2/4 in both modes; maps `byte8` to 8 in long mode but fails
with `InvalidWidth` in protected mode; and maps `word`, `ptr` and `max` to
8 in long mode and 4 in protected mode. -/
theorem set_prime_size_table :
    set_prime_size xm_long w_byte = .ok 1 ∧
    set_prime_size xm_protected w_byte = .ok 1 ∧
    set_prime_size xm_long w_byte2 = .ok 2 ∧
    set_prime_size xm_protected w_byte2 = .ok 2 ∧
    set_prime_size xm_long w_byte4 = .ok 4 ∧
    set_prime_size xm_protected w_byte4 = .ok 4 ∧
    set_prime_size xm_long w_byte8 = .ok 8 ∧
    set_prime_size xm_protected w_byte8 = .error .InvalidWidth ∧
    set_prime_size xm_long w_word = .ok 8 ∧
    set_prime_size xm_protected w_word = .ok 4 ∧
    set_prime_size xm_long w_ptr = .ok 8 ∧
    set_prime_size xm_protected w_ptr = .ok 4 ∧
    set_prime_size xm_long w_max = .ok 8 ∧
    set_prime_size xm_protected w_max = .ok 4 := by
  decide

/-! ## C7 — storage classes accepted by `Routine::set_sclass` -/

/-- C7: the guard of `Routine::set_sclass` tests `!= sc_private` twice
instead of testing `sc_public` in the second conjunct, so the function
succeeds *only* for `sc_private` and rejects `sc_public` — the class the
claim (and the spec) says must be accepted — with `InvalidStorageClass`. -/
theorem set_sclass_rejects_public :
    set_sclass sc_public = .error .InvalidStorageClass ∧
    set_sclass sc_private = .ok sc_private ∧
    ∀ sc, set_sclass sc =
      if sc = sc_private then .ok sc else .error .InvalidStorageClass := by
  refine ⟨rfl, rfl, ?_⟩
  intro sc
  cases sc <;> rfl

/-! ## C8 — `Obj_Index::add` -/

/-- C8 counterexample: adding an object with an *empty* name to an empty
container succeeds instead of failing with `Unnamed` — the `named()` guard
in `Obj_Index::add` is commented out. -/
theorem obj_add_accepts_unnamed :
    Obj_Index.add [] ⟨""⟩ = .ok [⟨""⟩] ∧
    Obj_Index.add [] ⟨""⟩ ≠ .error .Unnamed := by
  decide

/-- Membership test used by `DS_insert` agrees with `DS_find`. -/
theorem any_name_eq_find_isSome (l : List Object) (nm : String) :
    (l.any fun o => decide (o.name = nm)) =
      (l.find? fun o => decide (o.name = nm)).isSome := by
  induction l with
  | nil => rfl
  | cons o rest ih =>
    by_cases h : o.name = nm <;> simp [List.any_cons, List.find?_cons, h, ih]

/-- C8 (amended): `Obj_Index::add` fails with `DuplicateName` exactly when
an object of the same name is already in the container, and otherwise
inserts the object — including an object with an empty name, which is
inserted under the empty key rather than rejected as `Unnamed`. -/
theorem obj_add_spec :
    ∀ (index : List Object) (object : Object),
      Obj_Index.add index object =
        if (Obj_Index.find index object.name).isSome then
          .error .DuplicateName
        else
          .ok (index ++ [object]) := by
  intro index object
  unfold Obj_Index.add DS_insert Obj_Index.find DS_find
  rw [← any_name_eq_find_isSome]
  cases h : index.any fun o => decide (o.name = object.name) <;> simp [h]

/-! ## C10 — `Liveness` on an empty block -/

/-- C10: given an empty basic block, `Liveness` returns immediately (the
missing-last-instruction diagnostic is `V_DEBUG`, not an error): the block
stays empty, the operand container and every live flag are unchanged,
nothing is removed and no error is raised. -/
theorem liveness_empty_block_unchanged :
    ∀ (ty : String → storage_t) (live : String → Bool) (ops : List String),
      Liveness ty [] live ops = ⟨[], live, ops, [], 0⟩ :=
  fun _ _ _ => rfl

/-! ## C1 — struct layout -/

/-- C1: on `struct S { a: byte; b: byte4; c: byte }` in protected mode the
emitted `struc` block places the members at offsets `a=0, b=4, c=8` with a
padding warning before `b`, and the assembler therefore computes
`S_size = 9`; but `set_struct_size` stores size 6 — the bare sum of the
member sizes, never adding the padding it just emitted — so the
`%if (0x6 != S_size) %error %endif` sanity check that the function itself
prints after the block fails. -/
theorem set_struct_size_self_check_fails :
    exStructS.size = 6 ∧
    strucOffsets 0 exStructS.lines = [("a", 0), ("b", 4), ("c", 8)] ∧
    strucSize 0 exStructS.lines = 9 ∧
    exStructS.warns = [warnPad "b" "S"] ∧
    exStructS.size ≠ strucSize 0 exStructS.lines := by
  decide

/-! ## C6 — the emitter's `div` -/

/-- C6: evaluating the emitter's `div` on `div t, n, d` (values `n = 7`,
`d = 5`): the numerator is loaded into the accumulator, an unsigned `div`
is emitted for unsigned operands and `idiv` as soon as one operand is
signed, and the result is recorded in the accumulator for `div` and the
data register for `mod` — but the data register is *not* cleared: the
second `Load_prime` loads the divisor into it, so at the division
instruction the data register holds the divisor's value 5, not the zero
high half the claim requires. -/
theorem div_divisor_in_data_register :
    (div xm_protected .r_div divRes divNum divDen emptyDesc).1 =
      [.load .A "n", .load .D "d", .put3 "div" "edx" ""] ∧
    exec divEnv (div xm_protected .r_div divRes divNum divDen emptyDesc).1
      zeroRegs .A = 7 ∧
    exec divEnv (div xm_protected .r_div divRes divNum divDen emptyDesc).1
      zeroRegs .D = divEnv "d" ∧
    exec divEnv (div xm_protected .r_div divRes divNum divDen emptyDesc).1
      zeroRegs .D ≠ 0 ∧
    (div xm_protected .r_div divRes divNum divDen emptyDesc).2 .A = some "t" ∧
    (div xm_protected .r_mod divRes divNum divDen emptyDesc).2 .D = some "t" ∧
    (div xm_protected .r_div divRes { divNum with signed := true } divDen
      emptyDesc).1 =
      [.load .A "n", .load .D "d", .put3 "idiv" "edx" ""] := by
  refine ⟨rfl, rfl, rfl, by decide, rfl, rfl, rfl⟩

/-! ## C9 — `str_num` and the `0x` prefix -/

/-- C9: `str_num` renders a number as the two characters `0x` followed by
its *decimal* digits (`sprintf("0x%llu", num)`), so for every value
`v ≥ 10` the emitted text, read as the hexadecimal literal the `0x` prefix
announces, denotes a value different from `v`. -/
theorem str_num_hex_misread :
    ∀ v : Nat, 10 ≤ v →
      str_num v = "0x" ++ Nat.repr v ∧ hexValOfDec v ≠ v := by
  intro v hv
  refine ⟨rfl, ?_⟩
  have hlt : v < hexValOfDec v := by
    unfold hexValOfDec
    rw [Nat.digits_def' (by norm_num : (1 : Nat) < 10) (by omega : 0 < v)]
    rw [Nat.ofDigits_cons]
    have h1 : (v / 10 : Nat) ≤ Nat.ofDigits 16 (Nat.digits 10 (v / 10)) := by
      calc (v / 10 : Nat)
          = Nat.ofDigits 10 (Nat.digits 10 (v / 10)) :=
            (Nat.ofDigits_digits 10 (v / 10)).symm
        _ ≤ Nat.ofDigits 16 (Nat.digits 10 (v / 10)) :=
            Nat.ofDigits_monotone (Nat.digits 10 (v / 10)) (by norm_num)
    have h2 : 0 < v / 10 := Nat.div_pos hv (by norm_num)
    omega
  omega

/-- C9 witness: at `v = 10`, `str_num` writes `"0x10"`, and `0x10`
denotes 16, not 10. -/
theorem str_num_hex_misread_witness :
    10 ≤ 10 ∧ (str_num 10 = "0x" ++ Nat.repr 10 ∧ hexValOfDec 10 ≠ 10) :=
  ⟨by norm_num, str_num_hex_misread 10 (by norm_num)⟩

/-! ## C3 — dead temps are deleted from the operand container -/

/-- One liveness step neither duplicates container keys nor lets a removed
label stay in (or come back to) the container. -/
theorem liveness_step_preserves (ty : String → storage_t) (st : LiveResult)
    (inst : Instruction) (h1 : st.ops.Nodup)
    (h2 : ∀ l ∈ st.removed, l ∉ st.ops) :
    (liveness_step ty st inst).ops.Nodup ∧
      ∀ l ∈ (liveness_step ty st inst).removed,
        l ∉ (liveness_step ty st inst).ops := by
  unfold liveness_step
  split_ifs with hnop hnores huny hdead hbin hdead2
  · exact ⟨h1, h2⟩
  · exact ⟨h1, h2⟩
  · refine ⟨h1.erase inst.result, ?_⟩
    intro l hl
    simp only [List.mem_cons] at hl
    cases hl with
    | inl he =>
      subst he
      intro hm
      exact ((List.Nodup.mem_erase_iff h1).1 hm).1 rfl
    | inr hm =>
      intro hmem
      exact h2 l hm (List.mem_of_mem_erase hmem)
  · exact ⟨h1, h2⟩
  · refine ⟨h1.erase inst.result, ?_⟩
    intro l hl
    simp only [List.mem_cons] at hl
    cases hl with
    | inl he =>
      subst he
      intro hm
      exact ((List.Nodup.mem_erase_iff h1).1 hm).1 rfl
    | inr hm =>
      intro hmem
      exact h2 l hm (List.mem_of_mem_erase hmem)
  · exact ⟨h1, h2⟩
  · exact ⟨h1, h2⟩

/-- The backward walk preserves the container invariants of
`liveness_step_preserves`. -/
theorem liveness_fold_preserves (ty : String → storage_t) :
    ∀ (l : List Instruction) (st : LiveResult), st.ops.Nodup →
      (∀ x ∈ st.removed, x ∉ st.ops) →
      (l.foldl (liveness_step ty) st).ops.Nodup ∧
        ∀ x ∈ (l.foldl (liveness_step ty) st).removed,
          x ∉ (l.foldl (liveness_step ty) st).ops := by
  intro l
  induction l with
  | nil => intro st h1 h2; exact ⟨h1, h2⟩
  | cons inst rest ih =>
    intro st h1 h2
    rw [List.foldl_cons]
    obtain ⟨g1, g2⟩ := liveness_step_preserves ty st inst h1 h2
    exact ih _ g1 g2

/-- Each liveness step either keeps the instruction in the block or
records it as removed: the two counts add up. -/
theorem liveness_step_count (ty : String → storage_t) (st : LiveResult)
    (inst : Instruction) :
    (liveness_step ty st inst).block.length +
        (liveness_step ty st inst).removed.length =
      st.block.length + st.removed.length + 1 := by
  unfold liveness_step
  split_ifs <;> simp <;> omega

/-- Over the whole walk, survivors plus removed instructions account for
every processed instruction. -/
theorem liveness_fold_count (ty : String → storage_t) :
    ∀ (l : List Instruction) (st : LiveResult),
      (l.foldl (liveness_step ty) st).block.length +
          (l.foldl (liveness_step ty) st).removed.length =
        st.block.length + st.removed.length + l.length := by
  intro l
  induction l with
  | nil => intro st; simp
  | cons inst rest ih =>
    intro st
    rw [List.foldl_cons, ih]
    have := liveness_step_count ty st inst
    simp only [List.length_cons]
    omega

/-- C3: over a unique-keyed operand container, every instruction the
liveness pass drops is accounted against the input block (survivors plus
removed instructions add up to the block's length), and when the pass
exits no removed temp is present in the operand container. -/
theorem liveness_removed_temps_deleted :
    ∀ (ty : String → storage_t) (blk : List Instruction)
      (live : String → Bool) (ops : List String), ops.Nodup →
      ((Liveness ty blk live ops).block.length +
          (Liveness ty blk live ops).removed.length = blk.length) ∧
      ∀ l ∈ (Liveness ty blk live ops).removed,
        l ∉ (Liveness ty blk live ops).ops := by
  intro ty blk live ops hnd
  cases blk with
  | nil => exact ⟨rfl, by intro l hl; simp [Liveness] at hl⟩
  | cons b bs =>
    constructor
    · have := liveness_fold_count ty (b :: bs).reverse ⟨[], live, ops, [], 0⟩
      simpa [Liveness] using this
    · have := liveness_fold_preserves ty (b :: bs).reverse ⟨[], live, ops, [], 0⟩
        hnd (by intro x hx; simp at hx)
      exact this.2

/-- C3 witness: on the one-instruction block `mul t2, c, d` with dead temp
`t2`, the instruction is removed (no survivors) and `t2` is gone from the
container. -/
theorem liveness_removed_temps_deleted_witness :
    (opsDead.Nodup ∧ "t2" ∈ (Liveness tyDead blkDead (fun _ => false) opsDead).removed) ∧
    ((Liveness tyDead blkDead (fun _ => false) opsDead).block.length +
        (Liveness tyDead blkDead (fun _ => false) opsDead).removed.length =
      blkDead.length) ∧
    "t2" ∉ (Liveness tyDead blkDead (fun _ => false) opsDead).ops :=
  ⟨⟨by decide, by decide⟩,
   (liveness_removed_temps_deleted tyDead blkDead (fun _ => false) opsDead
      (by decide)).1,
   (liveness_removed_temps_deleted tyDead blkDead (fun _ => false) opsDead
      (by decide)).2 "t2" (by decide)⟩

/-! ## C2 — what `used_next` actually means -/

/-- The no-result class is disjoint from the result classes. -/
theorem noResult2_not_result (op : inst_code) :
    isNoResultOp2 op = true → (isUnaryOp op || isBinaryOp op) = false := by
  cases op <;> decide

/-- One step of the `used_next` walk keeps the rolling handles equal to
`nextArgs` of the surviving suffix and keeps every already-processed
`used_next` bit consistent with its suffix. -/
theorem liveness_un_step_inv (ty : String → storage_t) (st : LiveUNResult)
    (inst : Instruction)
    (h1 : st.arg1 = (nextArgs st.block).1)
    (h2 : st.arg2 = (nextArgs st.block).2)
    (h3 : usedNextOK st.block = true) :
    (liveness_un_step ty st inst).arg1 =
        (nextArgs (liveness_un_step ty st inst).block).1 ∧
      (liveness_un_step ty st inst).arg2 =
        (nextArgs (liveness_un_step ty st inst).block).2 ∧
      usedNextOK (liveness_un_step ty st inst).block = true := by
  unfold liveness_un_step
  split_ifs with hnop hnores huny hdead hbin hdead2
  · -- nop: instruction kept untouched, handles unchanged
    refine ⟨?_, ?_, ?_⟩ <;>
      simp [nextArgs, usedNextOK, hnop, h1, h2, h3,
        show isUnaryOp i_nop = false from rfl,
        show isBinaryOp i_nop = false from rfl]
  · -- no-result class
    refine ⟨?_, ?_, ?_⟩ <;>
      simp [nextArgs, usedNextOK, hnop, hnores, h3, noResult2_not_result _ hnores]
  · -- unary with dead temp result: removed, block and handles unchanged
    exact ⟨h1, h2, h3⟩
  · -- unary kept
    refine ⟨?_, ?_, ?_⟩ <;>
      simp [nextArgs, usedNextOK, hnop, hnores, huny, h1, h2, h3]
  · -- binary with dead temp result
    exact ⟨h1, h2, h3⟩
  · -- binary kept
    refine ⟨?_, ?_, ?_⟩ <;>
      simp [nextArgs, usedNextOK, hnop, hnores, huny, hbin, h1, h2, h3]
  · -- unknown opcode: error counted, instruction kept, handles unchanged
    refine ⟨?_, ?_, ?_⟩ <;>
      simp [nextArgs, usedNextOK, hnop, hnores, huny, hbin, h1, h2, h3]

/-- The whole backward walk preserves the `used_next` invariant. -/
theorem liveness_un_fold_inv (ty : String → storage_t) :
    ∀ (l : List Instruction) (st : LiveUNResult),
      st.arg1 = (nextArgs st.block).1 →
      st.arg2 = (nextArgs st.block).2 →
      usedNextOK st.block = true →
      usedNextOK ((l.foldl (liveness_un_step ty) st).block) = true := by
  intro l
  induction l with
  | nil => intro st _ _ h3; exact h3
  | cons inst rest ih =>
    intro st h1 h2 h3
    rw [List.foldl_cons]
    obtain ⟨g1, g2, g3⟩ := liveness_un_step_inv ty st inst h1 h2 h3
    exact ih _ g1 g2 g3

/-- C2 (amended): after the liveness pass, a surviving unary- or
binary-result instruction's `used_next` flag is true iff its result operand
is the left or right operand of the *next* surviving non-`nop` instruction
of the block — the rolling `arg1`/`arg2` handles only ever hold the
operands of the most recently processed instruction. -/
theorem liveness_used_next_next_reader :
    ∀ (ty : String → storage_t) (blk : List Instruction)
      (live : String → Bool) (ops : List String),
      usedNextOK (Liveness_un ty blk live ops).block = true := by
  intro ty blk live ops
  cases blk with
  | nil => rfl
  | cons b bs =>
    exact liveness_un_fold_inv ty (b :: bs).reverse
      ⟨[], live, ops, [], 0, none, none⟩ rfl rfl rfl

/-- C2 counterexample: on the block `add t, a, b ; ass x, c ; ass y, t`
the pass leaves `used_next = false` on the `add` although the later
`ass y, t` reads its result `t` — `used_next` only looks one instruction
ahead, refuting "iff some later instruction in the same block reads the
result". -/
theorem liveness_used_next_ignores_later_reads :
    (Liveness_un tyUN blkUN (fun _ => false) opsUN).block =
      [{ op := i_add, result := "t", left := "a", right := "b" },
       { op := i_ass, result := "x", left := "c" },
       { op := i_ass, result := "y", left := "t" }] ∧
    c2_spec_holds (Liveness_un tyUN blkUN (fun _ => false) opsUN).block = false := by
  decide

/-! ## C5 — shape of the blocks built by `Mk_blk` -/

/-- Prepending a non-terminator keeps "terminators only in last position". -/
theorem noMidTerm_cons (term : inst_code → Bool) (inst : Instruction)
    (l : List Instruction) (h : term inst.op = false)
    (hl : noMidTerm term l = true) : noMidTerm term (inst :: l) = true := by
  cases l with
  | nil => rfl
  | cons x xs => simp [noMidTerm, h, hl]

/-- The instructions `Mk_blk`'s drain loop collects contain a terminator at
most in last position. -/
theorem mk_blk_rest_noMidTerm :
    ∀ l : List Instruction, noMidTerm isMkBlkTerm (mk_blk_rest l).1 = true := by
  intro l
  induction l with
  | nil => rfl
  | cons inst rest ih =>
    simp only [mk_blk_rest]
    split_ifs with hlbl hterm
    · rfl
    · rfl
    · exact noMidTerm_cons _ _ _ (by simpa using hterm) ih

/-- The instructions `Mk_blk`'s drain loop collects contain no label. -/
theorem mk_blk_rest_noLbl :
    ∀ l : List Instruction, ∀ i ∈ (mk_blk_rest l).1, i.op ≠ i_lbl := by
  intro l
  induction l with
  | nil => intro i hi; simp [mk_blk_rest] at hi
  | cons inst rest ih =>
    intro i hi
    simp only [mk_blk_rest] at hi
    split_ifs at hi with hlbl hterm
    · simp at hi
    · simp only [List.mem_singleton] at hi
      subst hi
      exact hlbl
    · simp only [List.mem_cons] at hi
      cases hi with
      | inl he => subst he; exact hlbl
      | inr hm => exact ih i hm

/-- Every block `Mk_blk` returns is non-empty, has `jmp`/`jz`/`rtrn`/`call`
only in last position, and has a label only as its first instruction. -/
theorem Mk_blk_wf :
    ∀ (q b r : List Instruction), Mk_blk q = some (b, r) →
      blockWF_code b = true := by
  intro q b r h
  cases q with
  | nil => exact absurd h (by simp [Mk_blk])
  | cons inst rest =>
    simp only [Mk_blk] at h
    split_ifs at h with hterm
    · have h2 := Option.some.inj h
      injection h2 with hb hr
      subst hb
      rfl
    · have h2 := Option.some.inj h
      injection h2 with hb hr
      subst hb
      have hnoMid := noMidTerm_cons isMkBlkTerm inst (mk_blk_rest rest).1
        (by simpa using hterm) (mk_blk_rest_noMidTerm rest)
      simp [blockWF_code, lblOnlyFirst, hnoMid, List.all_eq_true]
      exact mk_blk_rest_noLbl rest

/-- Every block produced by the block former's driver loop satisfies
`blockWF_code`, for any amount of fuel. -/
theorem mkBlocksFuel_wf :
    ∀ (fuel : Nat) (q blk : List Instruction),
      blk ∈ mkBlocksFuel fuel q → blockWF_code blk = true := by
  intro fuel
  induction fuel with
  | zero => intro q blk h; simp [mkBlocksFuel] at h
  | succ n ih =>
    intro q blk h
    simp only [mkBlocksFuel] at h
    cases hq : Mk_blk q with
    | none => rw [hq] at h; simp at h
    | some p =>
      obtain ⟨b, r⟩ := p
      rw [hq] at h
      simp only [List.mem_cons] at h
      cases h with
      | inl he => subst he; exact Mk_blk_wf q blk r hq
      | inr hm => exact ih r blk hm

/-- C5 (amended): every basic block produced by the block former is
non-empty, the opcodes `Mk_blk` treats as terminators — `jmp`, `jz`,
`rtrn`, `call`, but *not* `loop` — occur only as the last instruction of
their block, and a label occurs only as the first instruction of a
block. -/
theorem mkBlocks_blockWF :
    ∀ q blk : List Instruction, blk ∈ mkBlocks q → blockWF_code blk = true :=
  fun q blk h => mkBlocksFuel_wf q.length q blk h

/-- C5 counterexample: from the queue `loop x ; nop` the block former
builds the single block `[loop x, nop]`, in which the terminator `loop`
is not the last instruction — `Mk_blk` does not treat `loop` as a
terminator, refuting the claim for the spec's terminator set. -/
theorem mkBlocks_loop_not_terminator :
    mkBlocks exQ = [exLoopBlk] ∧
    ((mkBlocks exQ).all blockWF_spec) = false := by
  decide

/-- C5 witness: the amended well-formedness applied to the concrete block
built from `loop x ; nop`. -/
theorem mkBlocks_blockWF_witness :
    exLoopBlk ∈ mkBlocks exQ ∧ blockWF_code exLoopBlk = true :=
  ⟨by decide, mkBlocks_blockWF exQ exLoopBlk (by decide)⟩

end MPL
